import Mathlib

/-!
Shallow embedding of the Timeline Media Renamer (source file
`#TimelineMediaRenamer.js`).  Pure logic of the program is translated into
executable Lean definitions; the two external libraries the program calls
(`luxon` date-times and the `exiftool-vendored` metadata reader) are modelled
as follows: a Luxon `DateTime` is a validity flag plus an instant
(milliseconds since the Unix epoch, UTC) plus a fixed offset in minutes, with
the calendar decomposition implemented by the standard civil-calendar
algorithms; the external parsers (`DateTime.fromISO`, the JS `Date`
constructor) and the metadata read itself are passed in as function
parameters, since their internals are not part of this repository.  Named
timezones are modelled as fixed minute offsets supplied by a `ZoneEnv`
(daylight-saving transitions are outside the scope of every claim).
-/

namespace TMR

/-! ### Configuration tables (class `TimelineMediaRenamerSettings`) -/

namespace TimelineMediaRenamerSettings

/-- List of recognized photo file extensions (source lines 42-46). -/
def PHOTO_EXTENSIONS : List String :=
  [".jpg", ".jpeg", ".png", ".gif", ".bmp", ".tiff", ".tif", ".heic", ".heif",
   ".webp", ".raw", ".arw", ".cr2", ".nef", ".orf", ".sr2", ".dng", ".rw2", ".raf",
   ".psd", ".xcf", ".ai", ".indd", ".svg", ".eps", ".pdf", ".lrtemplate", ".xmp"]

/-- List of recognized video file extensions (source lines 52-57). -/
def VIDEO_EXTENSIONS : List String :=
  [".3gp", ".mp4", ".mov", ".avi", ".mkv", ".webm", ".flv", ".wmv", ".mpeg", ".mpg",
   ".m4v", ".mts", ".m2ts", ".vob", ".rm", ".rmvb", ".asf", ".divx", ".xvid", ".ogv",
   ".ts", ".mxf", ".f4v", ".m2v", ".mpv", ".qt", ".mng", ".yuv", ".y4m", ".drc",
   ".f4p", ".f4a", ".f4b"]

/-- Priority list of local (non-timezone-aware) EXIF date tags (source lines 78-87). -/
def EXIF_DATES_LOCAL : List String :=
  ["DateTimeOriginal", "DateTimeCreated", "DateCreated", "DigitalCreationDateTime"]

/-- Priority list of timezone-aware EXIF/container date tags (source lines 97-112). -/
def EXIF_DATES_ZONED : List String :=
  ["CreationDate", "CreateDate", "ContentCreateDate", "MediaCreateDate", "ModifyDate"]

end TimelineMediaRenamerSettings

/-! ### Decimal rendering of numbers (JS number-to-string used by template
literals and by `String(n)`) -/

/-- Digits accumulator: produces the base-10 digits of `n` in front of `acc`;
structurally recursive on a fuel argument so that it reduces in the kernel
(any fuel at least `n` yields the digits, as proved below). -/
def natDigitsGo (fuel n : Nat) (acc : List Char) : List Char :=
  match fuel with
  | 0 => acc
  | fuel + 1 =>
    if n = 0 then acc else natDigitsGo fuel (n / 10) (Char.ofNat (48 + n % 10) :: acc)

/-- Decimal string of a natural number, as JS renders nonnegative integers. -/
def natToDecimal (n : Nat) : String :=
  if n = 0 then "0" else String.mk (natDigitsGo n n [])

/-- A string padded on the left with `c` up to length `len`
(JS `String.prototype.padStart`). -/
def padStart (s : String) (len : Nat) (c : Char) : String :=
  String.mk (List.replicate (len - s.data.length) c ++ s.data)

/-- Decimal rendering of an integer padded to `len` digits
(the Luxon `yyyy` / `MM` / ... format tokens). -/
def intPad (v : Int) (len : Nat) : String :=
  if v < 0 then "-" ++ padStart (natToDecimal v.natAbs) len '0'
  else padStart (natToDecimal v.natAbs) len '0'

/-! ### Civil (proleptic Gregorian) calendar arithmetic, used to model the
Luxon calendar decomposition -/

/-- Gregorian leap year. -/
def isLeap (y : Int) : Prop := (y % 4 = 0 ∧ y % 100 ≠ 0) ∨ y % 400 = 0

instance (y : Int) : Decidable (isLeap y) := by unfold isLeap; infer_instance

/-- Number of days in month `m` of year `y`. -/
def daysInMonth (y m : Int) : Int :=
  if m = 2 then (if isLeap y then 29 else 28)
  else if m = 4 ∨ m = 6 ∨ m = 9 ∨ m = 11 then 30
  else 31

/-- Days since 1970-01-01 of the civil date `(y, m, d)`
(standard era-decomposition algorithm). -/
def daysFromCivil (y m d : Int) : Int :=
  let y2 := y - (if m ≤ 2 then 1 else 0)
  let era := y2 / 400
  let yoe := y2 - era * 400
  let mp := (m + 9) % 12
  let doy := (153 * mp + 2) / 5 + d - 1
  let doe := yoe * 365 + yoe / 4 - yoe / 100 + doy
  era * 146097 + doe - 719468

/-- Civil date `(y, m, d)` of a count of days since 1970-01-01
(inverse era-decomposition algorithm). -/
def civilFromDays (z0 : Int) : Int × Int × Int :=
  let z := z0 + 719468
  let era := z / 146097
  let doe := z - era * 146097
  let yoe := (doe - doe / 1460 + doe / 36524 - doe / 146096) / 365
  let y := yoe + era * 400
  let doy := doe - (365 * yoe + yoe / 4 - yoe / 100)
  let mp := (5 * doy + 2) / 153
  let d := doy - (153 * mp + 2) / 5 + 1
  let m := mp + (if mp < 10 then 3 else -9)
  (y + (if m ≤ 2 then 1 else 0), m, d)

/-- Calendar components of a timestamp. -/
structure Civil where
  year : Int
  month : Int
  day : Int
  hour : Int
  minute : Int
  second : Int
deriving DecidableEq

/-- Calendar components of a local-time epoch value given in milliseconds. -/
def civilOfLocalMs (t : Int) : Civil :=
  let sec := t / 1000
  let days := sec / 86400
  let tod := sec % 86400
  let ymd := civilFromDays days
  { year := ymd.1, month := ymd.2.1, day := ymd.2.2,
    hour := tod / 3600, minute := (tod % 3600) / 60, second := tod % 60 }

/-! ### Model of a Luxon DateTime -/

/-- Model of a Luxon `DateTime`: validity flag, instant in milliseconds since
the Unix epoch (UTC), and a fixed zone offset in minutes. -/
structure LuxonDT where
  ok : Bool
  instant : Int
  offset : Int
deriving DecidableEq

/-- Timezone environment: the name of the machine's current zone
(`Intl.DateTimeFormat().resolvedOptions().timeZone`) and the minute offset of
every named zone; `none` stands for an absent (`undefined`) zone argument,
which Luxon resolves to the default (system) zone.  Zones are modelled as
fixed offsets. -/
structure ZoneEnv where
  localZone : String
  zoneOffset : Option String → Int

/-- Minute offset of the machine's current local timezone. -/
def ZoneEnv.localOffset (env : ZoneEnv) : Int := env.zoneOffset (some env.localZone)

/-- Epoch milliseconds of the DateTime's own wall clock (instant shifted by
its offset); its civil decomposition gives the components Luxon reports. -/
def LuxonDT.localMs (dt : LuxonDT) : Int := dt.instant + dt.offset * 60000

/-- The `yyyy-MM-dd_HH-mm-ss` rendering of calendar components. -/
def renderCivilStr (c : Civil) : String :=
  intPad c.year 4 ++ "-" ++ intPad c.month 2 ++ "-" ++ intPad c.day 2 ++ "_" ++
    intPad c.hour 2 ++ "-" ++ intPad c.minute 2 ++ "-" ++ intPad c.second 2

/-- Model of Luxon `toFormat(yyyy-MM-dd_HH-mm-ss)`: the components of a valid
DateTime rendered at its own offset; an invalid DateTime renders as the fixed
Luxon error text. -/
def LuxonDT.toFormat (dt : LuxonDT) : String :=
  if dt.ok then renderCivilStr (civilOfLocalMs dt.localMs)
  else "Invalid DateTime"

/-- Model of Luxon `setZone(name)`: the instant is kept, the offset becomes
the named zone's offset (an invalid DateTime stays invalid via `ok`). -/
def LuxonDT.setZoneName (dt : LuxonDT) (env : ZoneEnv) (z : String) : LuxonDT :=
  { dt with offset := env.zoneOffset (some z) }

/-! ### The structured date record (`exiftool-vendored` `ExifDateTime` shape,
also built by `#getCaptureDate` for string-valued tags) -/

/-- Structured date-with-offset record consumed by `#formatDate`.  Optional
fields model JS `undefined`. -/
structure CaptureRecord where
  year : Int
  month : Int
  day : Int
  hour : Int
  minute : Int
  second : Int
  millisecond : Option Int
  tzoffsetMinutes : Option Int
  rawValue : String
  zoneName : Option String
deriving DecidableEq

/-- Validity of the structured components, as Luxon `fromObject` checks them. -/
def recValid (cd : CaptureRecord) : Bool :=
  decide (1 ≤ cd.month) && decide (cd.month ≤ 12) &&
  decide (1 ≤ cd.day) && decide (cd.day ≤ daysInMonth cd.year cd.month) &&
  decide (0 ≤ cd.hour) && decide (cd.hour ≤ 23) &&
  decide (0 ≤ cd.minute) && decide (cd.minute ≤ 59) &&
  decide (0 ≤ cd.second) && decide (cd.second ≤ 59)

/-- Model of Luxon `DateTime.fromObject` on the record's explicit
year/month/day/hour/minute/second in zone `cd.zoneName`
(source lines 260-267). -/
def fromObjectModel (env : ZoneEnv) (cd : CaptureRecord) : LuxonDT :=
  let off := env.zoneOffset cd.zoneName
  { ok := recValid cd,
    instant := (daysFromCivil cd.year cd.month cd.day * 86400 +
      cd.hour * 3600 + cd.minute * 60 + cd.second) * 1000 - off * 60000,
    offset := off }

/-- The parse cascade of `#formatDate` (source lines 257-268): strict ISO
parsing of the raw textual form (external Luxon parser `fromISO` with
`setZone: true`, supplied as a parameter), falling back to `fromObject` on the
structured components when the ISO parse is invalid. -/
def parseCascade (env : ZoneEnv) (fromISO : String → LuxonDT) (cd : CaptureRecord) : LuxonDT :=
  let dt := fromISO cd.rawValue
  if dt.ok then dt else fromObjectModel env cd

/-- The trailing-offset regular expression of `#formatDate` (source line 255):
tests for a trailing `±HH:MM` pattern. -/
def offsetTest (s : String) : Bool :=
  match s.data.reverse with
  | d1 :: d2 :: c :: d3 :: d4 :: sg :: _ =>
    d1.isDigit && d2.isDigit && (c == ':') && d3.isDigit && d4.isDigit &&
      (sg == '+' || sg == '-')
  | _ => false

/-- JS truthiness of `captureDate.tzoffsetMinutes !== 0`: an absent
(`undefined`) field is not the number `0`, so it passes the test. -/
def jsTzNonzero : Option Int → Bool
  | some v => v != 0
  | none => true

/-- JS truthiness of `captureDate.zoneName && captureDate.zoneName !== 'UTC'`:
an absent or empty name is falsy. -/
def jsZoneNonUTC : Option String → Bool
  | some z => z != "" && z != "UTC"
  | none => false

/-- The explicit-offset decision of `#formatDate` (source lines 273-276). -/
def hasExplicitOffset (cd : CaptureRecord) : Bool :=
  offsetTest cd.rawValue || jsTzNonzero cd.tzoffsetMinutes || jsZoneNonUTC cd.zoneName

/-- Model of `#formatDate` (source lines 253-284). -/
def formatDate (env : ZoneEnv) (fromISO : String → LuxonDT) (key : String)
    (cd : CaptureRecord) : String :=
  let dt := parseCascade env fromISO cd
  let dt2 :=
    if key ∈ TimelineMediaRenamerSettings.EXIF_DATES_ZONED then
      if hasExplicitOffset cd then dt else dt.setZoneName env env.localZone
    else dt
  dt2.toFormat

/-! ### Capture date resolution (`#getCaptureDate`, source lines 182-223) -/

/-- A raw metadata value: a structured date object, a string, or some other
JS value (number, boolean, ...) which the resolver skips. -/
inductive ExifVal
  | obj (r : CaptureRecord)
  | str (s : String)
  | other
deriving DecidableEq

/-- A metadata mapping: tag name to raw value; `none` models an absent tag. -/
def ExifMap := String → Option ExifVal

/-- The record `#getCaptureDate` builds from a string-valued tag (source
lines 200-213): the JS `Date` parse result `t` (epoch milliseconds)
decomposed in the machine's local zone. -/
def recordFromJsMs (env : ZoneEnv) (t : Int) : CaptureRecord :=
  let loc := env.localOffset
  let c := civilOfLocalMs (t + loc * 60000)
  let ms := (t + loc * 60000) % 1000
  { year := c.year, month := c.month, day := c.day,
    hour := c.hour, minute := c.minute, second := c.second,
    millisecond := if ms ≠ 0 then some ms else none,
    tzoffsetMinutes := some loc,
    rawValue :=
      intPad c.year 4 ++ ":" ++ intPad c.month 2 ++ ":" ++ intPad c.day 2 ++ " " ++
        intPad c.hour 2 ++ ":" ++ intPad c.minute 2 ++ ":" ++ intPad c.second 2 ++
        (if loc < 0 then "-" else "+") ++
        intPad (loc.natAbs / 60 : Nat) 2 ++ ":" ++ intPad (loc.natAbs % 60 : Nat) 2,
    zoneName := some env.localZone }

/-- The priority search of `#getCaptureDate` (source lines 191-217): `jsDate`
models `new Date(string)` followed by `DateTime.fromJSDate`, returning the
epoch milliseconds for a parsable string and `none` for an invalid date. -/
def searchFields (env : ZoneEnv) (jsDate : String → Option Int) (exif : ExifMap) :
    List String → Option (String × CaptureRecord)
  | [] => none
  | key :: rest =>
    match exif key with
    | some (.obj r) => some (key, r)
    | some (.str s) =>
      if s = "" then searchFields env jsDate exif rest
      else
        match jsDate s with
        | none => searchFields env jsDate exif rest
        | some t => some (key, recordFromJsMs env t)
    | some .other => searchFields env jsDate exif rest
    | none => searchFields env jsDate exif rest

/-- Model of `#getCaptureDate` on an already-read metadata mapping. -/
def getCaptureDate (env : ZoneEnv) (jsDate : String → Option Int) (exif : ExifMap) :
    Option (String × CaptureRecord) :=
  searchFields env jsDate exif
    (TimelineMediaRenamerSettings.EXIF_DATES_LOCAL ++
      TimelineMediaRenamerSettings.EXIF_DATES_ZONED)

/-! ### Path helpers (Node `path` module, as used by the program) -/

/-- Characters of a path after the last separator. -/
def basenameStr (s : String) : String :=
  String.mk ((s.data.reverse.takeWhile (fun c => c != '/')).reverse)

/-- Model of `path.extname`: the substring of the basename from its last dot,
empty when there is no dot or the only dot starts the basename. -/
def extname (s : String) : String :=
  let b := (basenameStr s).data
  let e := b.reverse.takeWhile (fun c => c != '.')
  if e.length + 1 < b.length then String.mk ('.' :: e.reverse) else ""

/-- Model of `path.dirname`. -/
def dirname (s : String) : String :=
  let pre := (s.data.reverse.dropWhile (fun c => c != '/')).reverse
  if pre.isEmpty then "." else if pre = ['/'] then "/" else String.mk pre.dropLast

/-- Model of `path.join` for a directory and an entry name. -/
def pathJoin (d n : String) : String := d ++ "/" ++ n

/-- ASCII lowercasing of one character (JS `toLowerCase` on the characters
appearing in file extensions). -/
def lowerChar (c : Char) : Char :=
  if 'A' ≤ c ∧ c ≤ 'Z' then Char.ofNat (c.toNat + 32) else c

/-- Model of `String.prototype.toLowerCase`. -/
def lowerStr (s : String) : String := String.mk (s.data.map lowerChar)

/-! ### Filesystem model -/

/-- A snapshot of the filesystem: the set of existing paths and the
symlink-resolving canonicalization (`fs.realpathSync`). -/
structure FS where
  entries : List String
  realpath : String → String

/-- Model of `fs.existsSync`. -/
def FS.existsSync (fs : FS) (p : String) : Bool := decide (p ∈ fs.entries)

/-! ### Target name generation (`#getNewFilePath`, source lines 225-251) -/

/-- The collision suffix: empty on attempt 0, `_n` on attempt `n ≥ 1`
(source line 236). -/
def suffixStr (n : Nat) : String :=
  if 0 < n then "_" ++ natToDecimal n else ""

/-- The candidate file name of attempt `n` (source line 237). -/
def newFileNameAt (typePref formattedDate fileExt : String) (n : Nat) : String :=
  typePref ++ "_" ++ formattedDate ++ suffixStr n ++ fileExt

/-- The candidate full path of attempt `n` (source line 238). -/
def candidateAt (dir typePref formattedDate fileExt : String) (n : Nat) : String :=
  pathJoin dir (newFileNameAt typePref formattedDate fileExt n)

/-- The collision-suffix loop of `#getNewFilePath` (source lines 235-248),
with explicit fuel; `some (some p)` is a free target path, `some none` the
"already renamed" sentinel, and `none` exhausted fuel (shown unreachable for
fuel `fs.entries.length + 1` by the termination theorem). -/
def renameLoop (fs : FS) (filePath origRes : String) (mk : Nat → String) :
    Nat → Nat → Option (Option String)
  | 0, _ => none
  | fuel + 1, s =>
    let p := mk s
    if fs.existsSync p = false then some (some p)
    else if p = filePath ∨ fs.realpath p = origRes then some none
    else renameLoop fs filePath origRes mk fuel (s + 1)

/-- Model of `#getNewFilePath`: `none` is the JS `null` sentinel for an
already-renamed file. -/
def getNewFilePath (env : ZoneEnv) (fromISO : String → LuxonDT) (fs : FS)
    (key : String) (cd : CaptureRecord) (fileExt filePath : String) : Option String :=
  let formattedDate := formatDate env fromISO key cd
  let isVideo := decide (fileExt ∈ TimelineMediaRenamerSettings.VIDEO_EXTENSIONS)
  let typePref := if isVideo then "VID" else "IMG"
  let dir := dirname filePath
  let origRes := fs.realpath filePath
  (renameLoop fs filePath origRes (candidateAt dir typePref formattedDate fileExt)
    (fs.entries.length + 1) 0).getD none

/-! ### Pipeline driver (`#renameFiles`, source lines 141-175, and
`#safeRenameFile`, lines 286-296) -/

/-- Model of `#isFileSupported` (source lines 177-180). -/
def isFileSupported (fileExt : String) : Bool :=
  decide (fileExt ∈ TimelineMediaRenamerSettings.PHOTO_EXTENSIONS) ||
  decide (fileExt ∈ TimelineMediaRenamerSettings.VIDEO_EXTENSIONS)

/-- Outcome of processing one file. -/
inductive RenameOutcome
  | Renamed (src dst : String)
  | SkippedUnsupported
  | SkippedNoDate
  | SkippedAlreadyNamed
  | FailedRename (src : String)
deriving DecidableEq

/-- One iteration of the driver loop of `#renameFiles` for a single path:
`readExif` models the `exiftool.read` call (`none` for a read that throws),
`renameOk` models whether the filesystem rename succeeds. -/
def processFile (env : ZoneEnv) (fromISO : String → LuxonDT)
    (jsDate : String → Option Int) (readExif : String → Option ExifMap)
    (renameOk : String → String → Bool) (fs : FS) (filePath : String) :
    RenameOutcome :=
  let fileExt := lowerStr (extname filePath)
  if isFileSupported fileExt then
    match readExif filePath with
    | none => .SkippedNoDate
    | some exif =>
      match getCaptureDate env jsDate exif with
      | none => .SkippedNoDate
      | some (key, cd) =>
        match getNewFilePath env fromISO fs key cd fileExt filePath with
        | none => .SkippedAlreadyNamed
        | some newFilePath =>
          if renameOk filePath newFilePath then .Renamed filePath newFilePath
          else .FailedRename filePath
  else .SkippedUnsupported

/-- Run state threaded through the driver loop: the filesystem snapshot and
the two counters. -/
structure RunState where
  fs : FS
  renamed : Nat
  skipped : Nat

/-- One driver step: process a path, bump exactly one counter, and let a
successful rename update the filesystem snapshot through `applyRen` (the
effect of `fs.rename`, abstracted since no claim depends on its detail). -/
def stepFile (env : ZoneEnv) (fromISO : String → LuxonDT)
    (jsDate : String → Option Int) (readExif : String → Option ExifMap)
    (renameOk : String → String → Bool) (applyRen : FS → String → String → FS)
    (st : RunState) (filePath : String) : RunState :=
  match processFile env fromISO jsDate readExif renameOk st.fs filePath with
  | .Renamed src dst =>
    { fs := applyRen st.fs src dst, renamed := st.renamed + 1, skipped := st.skipped }
  | _ => { st with skipped := st.skipped + 1 }

/-- The driver loop of `#renameFiles` over the walker's file list. -/
def renameFiles (env : ZoneEnv) (fromISO : String → LuxonDT)
    (jsDate : String → Option Int) (readExif : String → Option ExifMap)
    (renameOk : String → String → Bool) (applyRen : FS → String → String → FS)
    (st : RunState) (files : List String) : RunState :=
  files.foldl (stepFile env fromISO jsDate readExif renameOk applyRen) st

/-! ### Elapsed-time formatting (`PerformanceWrapper.#formatPerformance`,
source lines 386-406) -/

/-- Model of `#formatPerformance` on a nonnegative elapsed millisecond
count. -/
def formatPerformance (ms : Nat) : String :=
  let hours := ms / 3600000
  let ms1 := ms % 3600000
  let minutes := ms1 / 60000
  let ms2 := ms1 % 60000
  let seconds := ms2 / 1000
  let milliseconds := ms2 % 1000
  let pad := fun (n : Nat) => padStart (natToDecimal n) 2 '0'
  let padMs := fun (n : Nat) => padStart (natToDecimal n) 3 '0'
  if hours ≠ 0 then
    pad hours ++ "." ++ pad minutes ++ "." ++ pad seconds ++ ":" ++
      padMs milliseconds ++ " (h.m.s:ms)"
  else if minutes ≠ 0 then
    pad minutes ++ "." ++ pad seconds ++ ":" ++ padMs milliseconds ++ " (m.s:ms)"
  else if seconds ≠ 0 then
    natToDecimal seconds ++ ":" ++ padMs milliseconds ++ " (s:ms)"
  else
    natToDecimal milliseconds ++ " (ms)"


/-! ### Helper lemmas: decimal rendering is injective -/

/-- Decoding of a digit list, the inverse reading of `natDigitsGo`. -/
def decDigits (acc : Nat) : List Char → Nat
  | [] => acc
  | c :: cs => decDigits (10 * acc + (c.toNat - 48)) cs

theorem decDigits_append (xs ys : List Char) :
    ∀ a, decDigits a (xs ++ ys) = decDigits (decDigits a xs) ys := by
  induction xs with
  | nil => intro a; rfl
  | cons c cs ih =>
    intro a
    rw [List.cons_append]
    show decDigits (10 * a + (c.toNat - 48)) (cs ++ ys) = _
    rw [ih]
    rfl

theorem natDigitsGo_acc (fuel : Nat) :
    ∀ n acc, natDigitsGo fuel n acc = natDigitsGo fuel n [] ++ acc := by
  induction fuel with
  | zero => intro n acc; rfl
  | succ f ih =>
    intro n acc
    by_cases h : n = 0
    · simp [natDigitsGo, h]
    · simp only [natDigitsGo, if_neg h]
      rw [ih (n / 10), ih (n / 10) [Char.ofNat (48 + n % 10)]]
      simp

theorem natDigitsGo_fuel (n : Nat) : ∀ fuel1 fuel2, n ≤ fuel1 → n ≤ fuel2 →
    natDigitsGo fuel1 n [] = natDigitsGo fuel2 n [] := by
  induction n using Nat.strong_induction_on with
  | _ n ih =>
    intro fuel1 fuel2 h1 h2
    by_cases hn : n = 0
    · subst hn
      cases fuel1 <;> cases fuel2 <;> simp [natDigitsGo]
    · obtain ⟨f1, rfl⟩ : ∃ f, fuel1 = f + 1 := ⟨fuel1 - 1, by omega⟩
      obtain ⟨f2, rfl⟩ : ∃ f, fuel2 = f + 1 := ⟨fuel2 - 1, by omega⟩
      simp only [natDigitsGo, if_neg hn]
      rw [natDigitsGo_acc f1, natDigitsGo_acc f2]
      rw [ih (n / 10) (by omega) f1 f2 (by omega) (by omega)]

theorem digitChar_toNat (d : Nat) (h : d < 10) : (Char.ofNat (48 + d)).toNat = 48 + d := by
  interval_cases d <;> decide

theorem natDigitsGo_zero_arg (fuel : Nat) : natDigitsGo fuel 0 [] = [] := by
  cases fuel <;> rfl

theorem decDigits_natDigitsGo (n : Nat) (hn : n ≠ 0) :
    decDigits 0 (natDigitsGo n n []) = n := by
  induction n using Nat.strong_induction_on with
  | _ n ih =>
    obtain ⟨f, rfl⟩ : ∃ f, n = f + 1 := ⟨n - 1, by omega⟩
    show decDigits 0 (natDigitsGo f ((f + 1) / 10) [Char.ofNat (48 + (f + 1) % 10)]) = f + 1
    rw [natDigitsGo_acc]
    rw [decDigits_append]
    by_cases h10 : (f + 1) / 10 = 0
    · rw [h10, natDigitsGo_zero_arg]
      show 10 * 0 + ((Char.ofNat (48 + (f + 1) % 10)).toNat - 48) = f + 1
      rw [digitChar_toNat ((f + 1) % 10) (by omega)]
      omega
    · rw [natDigitsGo_fuel ((f + 1) / 10) f ((f + 1) / 10) (by omega) (le_refl _)]
      rw [ih ((f + 1) / 10) (by omega) h10]
      show 10 * ((f + 1) / 10) + ((Char.ofNat (48 + (f + 1) % 10)).toNat - 48) = f + 1
      rw [digitChar_toNat ((f + 1) % 10) (by omega)]
      omega

theorem decDigits_natToDecimal (n : Nat) : decDigits 0 (natToDecimal n).data = n := by
  by_cases h : n = 0
  · subst h; decide
  · simp only [natToDecimal, if_neg h]
    exact decDigits_natDigitsGo n h

theorem string_data_inj {s t : String} (h : s.data = t.data) : s = t := by
  cases s; cases t; simp_all

theorem natToDecimal_inj : Function.Injective natToDecimal := by
  intro m n h
  have hm := decDigits_natToDecimal m
  have hn := decDigits_natToDecimal n
  rw [h] at hm
  omega

/-! ### Helper lemmas: candidate paths of distinct suffix attempts are
distinct -/

theorem suffixStr_data (n : Nat) (h : 0 < n) :
    (suffixStr n).data = '_' :: (natToDecimal n).data := by
  simp only [suffixStr, if_pos h]
  rw [String.data_append]
  rfl

theorem suffixStr_inj : Function.Injective suffixStr := by
  intro m n h
  have hdata := congrArg String.data h
  by_cases hm : 0 < m <;> by_cases hn : 0 < n
  · rw [suffixStr_data m hm, suffixStr_data n hn] at hdata
    simp only [List.cons.injEq, true_and] at hdata
    exact natToDecimal_inj (string_data_inj hdata)
  · rw [suffixStr_data m hm] at hdata
    have hn0 : n = 0 := by omega
    subst hn0
    simp [suffixStr] at hdata
  · rw [suffixStr_data n hn] at hdata
    have hm0 : m = 0 := by omega
    subst hm0
    simp [suffixStr] at hdata
  · omega

theorem candidateAt_inj (dir typePref formattedDate fileExt : String) :
    Function.Injective (candidateAt dir typePref formattedDate fileExt) := by
  intro a b h
  have hd := congrArg String.data h
  simp only [candidateAt, pathJoin, newFileNameAt, String.data_append,
    List.append_assoc] at hd
  have h1 : (suffixStr a).data ++ fileExt.data = (suffixStr b).data ++ fileExt.data := by
    have := List.append_cancel_left hd
    have := List.append_cancel_left this
    have := List.append_cancel_left this
    have := List.append_cancel_left this
    have := List.append_cancel_left this
    exact this
  exact suffixStr_inj (string_data_inj (List.append_cancel_right h1))

/-! ### Helper lemmas: the collision loop -/

theorem existsSync_false_iff (fs : FS) (p : String) :
    fs.existsSync p = false ↔ p ∉ fs.entries := by
  simp [FS.existsSync]

theorem card_entries_of_mem (fs : FS) (mk : Nat → String) (hinj : Function.Injective mk)
    (m : Nat) (h : ∀ k, k < m → fs.existsSync (mk k) = true) :
    m ≤ fs.entries.length := by
  have hnd : ((List.range m).map mk).Nodup := (List.nodup_range m).map hinj
  have hsub : (List.range m).map mk ⊆ fs.entries := by
    intro x hx
    simp only [List.mem_map, List.mem_range] at hx
    obtain ⟨k, hk, rfl⟩ := hx
    have := h k hk
    simpa [FS.existsSync] using this
  have := (List.subperm_of_subset hnd hsub).length_le
  simpa using this

theorem exists_free_candidate (fs : FS) (mk : Nat → String)
    (hinj : Function.Injective mk) :
    ∃ k, k ≤ fs.entries.length ∧ fs.existsSync (mk k) = false := by
  by_contra hcon
  push_neg at hcon
  have hall : ∀ k, k < fs.entries.length + 1 → fs.existsSync (mk k) = true := by
    intro k hk
    have := hcon k (by omega)
    revert this
    cases fs.existsSync (mk k) <;> simp
  have := card_entries_of_mem fs mk hinj (fs.entries.length + 1) hall
  omega

theorem renameLoop_isSome (fs : FS) (filePath origRes : String) (mk : Nat → String) :
    ∀ fuel s, (∃ j, j < fuel ∧ fs.existsSync (mk (s + j)) = false) →
    (renameLoop fs filePath origRes mk fuel s).isSome = true := by
  intro fuel
  induction fuel with
  | zero => intro s h; omega
  | succ f ih =>
    intro s h
    simp only [renameLoop]
    by_cases h1 : fs.existsSync (mk s) = false
    · simp [h1]
    · rw [if_neg h1]
      by_cases h2 : mk s = filePath ∨ fs.realpath (mk s) = origRes
      · simp [h2]
      · rw [if_neg h2]
        obtain ⟨j, hj, hfree⟩ := h
        have hj0 : j ≠ 0 := by
          intro h0
          subst h0
          simp at hfree
          exact h1 hfree
        exact ih (s + 1) ⟨j - 1, by omega, by
          have : s + 1 + (j - 1) = s + j := by omega
          rw [this]
          exact hfree⟩

theorem renameLoop_skip (fs : FS) (filePath origRes : String) (mk : Nat → String)
    (n : Nat) :
    ∀ fuel s, s ≤ n → n - s < fuel →
    (∀ k, s ≤ k → k < n → fs.existsSync (mk k) = true ∧
      ¬(mk k = filePath ∨ fs.realpath (mk k) = origRes)) →
    renameLoop fs filePath origRes mk fuel s =
      renameLoop fs filePath origRes mk (fuel - (n - s)) n := by
  intro fuel
  induction fuel with
  | zero => intro s _ h; omega
  | succ f ih =>
    intro s hs hlt hpass
    by_cases hsn : s = n
    · subst hsn; simp
    · have hk := hpass s le_rfl (by omega)
      simp only [renameLoop]
      rw [if_neg (by simp [hk.1]), if_neg hk.2]
      have := ih (s + 1) (by omega) (by omega)
        (fun k hk1 hk2 => hpass k (by omega) hk2)
      rw [this]
      congr 1
      omega

/-- The candidate-path sequence `#getNewFilePath` probes, as a function of the
attempt number (an abbreviation of the pieces of `getNewFilePath`). -/
def candidateOf (env : ZoneEnv) (fromISO : String → LuxonDT) (key : String)
    (cd : CaptureRecord) (fileExt filePath : String) : Nat → String :=
  candidateAt (dirname filePath)
    (if decide (fileExt ∈ TimelineMediaRenamerSettings.VIDEO_EXTENSIONS) then "VID" else "IMG")
    (formatDate env fromISO key cd) fileExt

theorem getNewFilePath_eq_loop (env : ZoneEnv) (fromISO : String → LuxonDT) (fs : FS)
    (key : String) (cd : CaptureRecord) (fileExt filePath : String) :
    getNewFilePath env fromISO fs key cd fileExt filePath =
      (renameLoop fs filePath (fs.realpath filePath)
        (candidateOf env fromISO key cd fileExt filePath)
        (fs.entries.length + 1) 0).getD none := rfl

/-- Claims C3 and C4 quantify over the run of the loop before its exit step:
every earlier candidate exists on the filesystem and is a different file. -/
abbrev passesThrough (fs : FS) (filePath : String) (mk : Nat → String) (k : Nat) : Prop :=
  fs.existsSync (mk k) = true ∧
    ¬(mk k = filePath ∨ fs.realpath (mk k) = fs.realpath filePath)

/-- C5: for every fixed filesystem state the collision-suffix loop of
`#getNewFilePath` terminates: the candidate paths of distinct attempts are
distinct strings, the directory holds finitely many entries, so running the
loop (which tries each suffix exactly once, in increasing order) with fuel
`entries.length + 1` already yields a result, and `getNewFilePath` is exactly
that bounded run. -/
theorem claim5_loop_terminates (env : ZoneEnv) (fromISO : String → LuxonDT) (fs : FS)
    (key : String) (cd : CaptureRecord) (fileExt filePath : String) :
    (renameLoop fs filePath (fs.realpath filePath)
      (candidateOf env fromISO key cd fileExt filePath)
      (fs.entries.length + 1) 0).isSome = true ∧
    getNewFilePath env fromISO fs key cd fileExt filePath =
      (renameLoop fs filePath (fs.realpath filePath)
        (candidateOf env fromISO key cd fileExt filePath)
        (fs.entries.length + 1) 0).getD none := by
  constructor
  · obtain ⟨k, hk, hfree⟩ := exists_free_candidate fs
      (candidateOf env fromISO key cd fileExt filePath) (candidateAt_inj _ _ _ _)
    exact renameLoop_isSome fs filePath (fs.realpath filePath) _ (fs.entries.length + 1) 0
      ⟨k, by omega, by simpa using hfree⟩
  · rfl

/-- C4: the generated candidate of attempt `n` is
`dir/{IMG_|VID_}{formattedDate}{suffix}{ext}` with empty suffix at attempt 0
and `_n` for `n ≥ 1`, and when every earlier candidate exists (and is an
unrelated file) while the candidate of attempt `n` does not exist, the chosen
target is exactly that first free candidate. -/
theorem claim4_first_free_candidate (env : ZoneEnv) (fromISO : String → LuxonDT)
    (fs : FS) (key : String) (cd : CaptureRecord) (fileExt filePath : String) (n : Nat)
    (hpass : ∀ k, k < n →
      passesThrough fs filePath (candidateOf env fromISO key cd fileExt filePath) k)
    (hfree : fs.existsSync (candidateOf env fromISO key cd fileExt filePath n) = false) :
    getNewFilePath env fromISO fs key cd fileExt filePath =
      some (candidateOf env fromISO key cd fileExt filePath n) ∧
    candidateOf env fromISO key cd fileExt filePath n =
      pathJoin (dirname filePath)
        ((if decide (fileExt ∈ TimelineMediaRenamerSettings.VIDEO_EXTENSIONS)
            then "VID" else "IMG") ++ "_" ++ formatDate env fromISO key cd ++
          (if 0 < n then "_" ++ natToDecimal n else "") ++ fileExt) := by
  refine ⟨?_, rfl⟩
  have hn : n ≤ fs.entries.length :=
    card_entries_of_mem fs _ (candidateAt_inj _ _ _ _) n (fun k hk => (hpass k hk).1)
  rw [getNewFilePath_eq_loop]
  rw [renameLoop_skip fs filePath (fs.realpath filePath)
    (candidateOf env fromISO key cd fileExt filePath) n (fs.entries.length + 1) 0
    (by omega) (by omega) (fun k hk0 hkn => hpass k hkn)]
  obtain ⟨t, ht⟩ : ∃ t, fs.entries.length + 1 - (n - 0) = t + 1 :=
    ⟨fs.entries.length - n, by omega⟩
  rw [ht]
  simp only [renameLoop]
  rw [if_pos hfree]
  rfl

/-- C3: when the candidate of attempt `n` exists and either is textually the
original path or resolves to the original's canonical path (every earlier
candidate being an unrelated existing file), `#getNewFilePath` returns the
"already renamed" sentinel, and the driver classifies the file as
`SkippedAlreadyNamed` - no rename to itself and no suffixed duplicate. -/
theorem claim3_already_named_idempotent (env : ZoneEnv) (fromISO : String → LuxonDT)
    (jsDate : String → Option Int) (readExif : String → Option ExifMap)
    (renameOk : String → String → Bool) (fs : FS) (filePath : String)
    (exif : ExifMap) (key : String) (cd : CaptureRecord) (n : Nat)
    (hsup : isFileSupported (lowerStr (extname filePath)) = true)
    (hread : readExif filePath = some exif)
    (hcap : getCaptureDate env jsDate exif = some (key, cd))
    (hpass : ∀ k, k < n →
      passesThrough fs filePath
        (candidateOf env fromISO key cd (lowerStr (extname filePath)) filePath) k)
    (hex : fs.existsSync
      (candidateOf env fromISO key cd (lowerStr (extname filePath)) filePath n) = true)
    (hself : candidateOf env fromISO key cd (lowerStr (extname filePath)) filePath n = filePath ∨
      fs.realpath (candidateOf env fromISO key cd (lowerStr (extname filePath)) filePath n) =
        fs.realpath filePath) :
    getNewFilePath env fromISO fs key cd (lowerStr (extname filePath)) filePath = none ∧
    processFile env fromISO jsDate readExif renameOk fs filePath = .SkippedAlreadyNamed := by
  have hn : n + 1 ≤ fs.entries.length := by
    refine card_entries_of_mem fs
      (candidateOf env fromISO key cd (lowerStr (extname filePath)) filePath)
      (candidateAt_inj _ _ _ _) (n + 1) (fun k hk => ?_)
    by_cases hkn : k < n
    · exact (hpass k hkn).1
    · have : k = n := by omega
      subst this
      exact hex
  have hloop : getNewFilePath env fromISO fs key cd (lowerStr (extname filePath)) filePath = none := by
    rw [getNewFilePath_eq_loop]
    rw [renameLoop_skip fs filePath (fs.realpath filePath)
      (candidateOf env fromISO key cd (lowerStr (extname filePath)) filePath) n
      (fs.entries.length + 1) 0 (by omega) (by omega) (fun k hk0 hkn => hpass k hkn)]
    obtain ⟨t, ht⟩ : ∃ t, fs.entries.length + 1 - (n - 0) = t + 1 :=
      ⟨fs.entries.length - n, by omega⟩
    rw [ht]
    simp only [renameLoop]
    rw [if_neg (by simp [hex]), if_pos hself]
    rfl
  refine ⟨hloop, ?_⟩
  simp only [processFile, hsup, if_true, hread, hcap, hloop]

/-! ### Shared concrete fixtures for the witness theorems -/

/-- A machine environment whose local zone is UTC. -/
def env0 : ZoneEnv := { localZone := "UTC", zoneOffset := fun _ => 0 }

/-- A machine environment at UTC+3. -/
def envP3 : ZoneEnv :=
  { localZone := "Europe/Moscow",
    zoneOffset := fun z => if z = some "Europe/Moscow" then 180 else 0 }

/-- An ISO parser stub that rejects every string (the behaviour of Luxon
`fromISO` on the colon-separated EXIF raw forms used by the fixtures). -/
def noISO : String → LuxonDT := fun _ => { ok := false, instant := 0, offset := 0 }

/-- A JS `Date` parser stub that rejects every string. -/
def jsNone : String → Option Int := fun _ => none

/-- A structured capture record for 2024-01-01 00:00:00 UTC. -/
def cd0 : CaptureRecord :=
  { year := 2024, month := 1, day := 1, hour := 0, minute := 0, second := 0,
    millisecond := none, tzoffsetMinutes := some 0,
    rawValue := "2024:01:01 00:00:00+00:00", zoneName := some "UTC" }

/-- A metadata mapping carrying only `DateTimeOriginal` as an object. -/
def exif0 : ExifMap :=
  fun k => if k = "DateTimeOriginal" then some (.obj cd0) else none

/-- A filesystem whose only entry is the canonically named image, with
trivial symlink resolution. -/
def fs1 : FS := { entries := ["/d/IMG_2024-01-01_00-00-00.jpg"], realpath := id }

/-- Witness for C4: an unrelated file occupies the unsuffixed name, so the
new file gets suffix `_1`. -/
theorem claim4_witness :
    (∀ k, k < 1 →
      passesThrough fs1 "/d/old.jpg" (candidateOf env0 noISO "DateTimeOriginal" cd0 ".jpg" "/d/old.jpg") k) ∧
    fs1.existsSync (candidateOf env0 noISO "DateTimeOriginal" cd0 ".jpg" "/d/old.jpg" 1) = false ∧
    getNewFilePath env0 noISO fs1 "DateTimeOriginal" cd0 ".jpg" "/d/old.jpg" =
      some "/d/IMG_2024-01-01_00-00-00_1.jpg" := by
  refine ⟨by decide, by decide, ?_⟩
  have h := claim4_first_free_candidate env0 noISO fs1 "DateTimeOriginal" cd0 ".jpg" "/d/old.jpg" 1
    (by decide) (by decide)
  rw [h.1]
  decide

/-- Witness for C3: a file already bearing its canonical name is classified
`SkippedAlreadyNamed`. -/
theorem claim3_witness :
    isFileSupported (lowerStr (extname "/d/IMG_2024-01-01_00-00-00.jpg")) = true ∧
    getCaptureDate env0 jsNone exif0 = some ("DateTimeOriginal", cd0) ∧
    processFile env0 noISO jsNone (fun _ => some exif0) (fun _ _ => true) fs1
      "/d/IMG_2024-01-01_00-00-00.jpg" = .SkippedAlreadyNamed := by
  refine ⟨by decide, by decide, ?_⟩
  have h := claim3_already_named_idempotent env0 noISO jsNone (fun _ => some exif0)
    (fun _ _ => true) fs1 "/d/IMG_2024-01-01_00-00-00.jpg" exif0 "DateTimeOriginal" cd0 0
    (by decide) rfl (by decide) (by decide) (by decide) (by decide)
  exact h.2

/-- C7: a file whose lowercased extension is in neither allowlist is always
classified `SkippedUnsupported`, and the outcome does not depend on the
metadata reader at all (it is never consulted), nor on the rename executor or
the filesystem - the file is never touched. -/
theorem claim7_unsupported_untouched (env : ZoneEnv) (fromISO : String → LuxonDT)
    (jsDate : String → Option Int) (readExif readExif2 : String → Option ExifMap)
    (renameOk renameOk2 : String → String → Bool) (fs fs2 : FS) (filePath : String)
    (hunsup : isFileSupported (lowerStr (extname filePath)) = false) :
    processFile env fromISO jsDate readExif renameOk fs filePath = .SkippedUnsupported ∧
    processFile env fromISO jsDate readExif renameOk fs filePath =
      processFile env fromISO jsDate readExif2 renameOk2 fs2 filePath := by
  constructor <;> simp [processFile, hunsup]

/-- Witness for C7: a `.xyz` file is skipped as unsupported under any
metadata reader. -/
theorem claim7_witness :
    isFileSupported (lowerStr (extname "/a/b.xyz")) = false ∧
    processFile env0 noISO jsNone (fun _ => some exif0) (fun _ _ => true) fs1 "/a/b.xyz" =
      .SkippedUnsupported :=
  ⟨by decide,
    (claim7_unsupported_untouched env0 noISO jsNone (fun _ => some exif0) (fun _ => none)
      (fun _ _ => true) (fun _ _ => true) fs1 fs1 "/a/b.xyz" (by decide)).1⟩

/-- C8: the run-summary duration string is chosen adaptively by magnitude:
hours/minutes/seconds/milliseconds fields with the `H.MM.SS:mmm` shape from
one hour up, `MM.SS:mmm` from one minute up, `S:mmm` from one second up, and
the bare millisecond count below one second (each suffixed with its unit
legend, as the source appends). -/
theorem claim8_duration_adaptive (ms : Nat) :
    (3600000 ≤ ms →
      formatPerformance ms =
        padStart (natToDecimal (ms / 3600000)) 2 '0' ++ "." ++
        padStart (natToDecimal (ms % 3600000 / 60000)) 2 '0' ++ "." ++
        padStart (natToDecimal (ms % 3600000 % 60000 / 1000)) 2 '0' ++ ":" ++
        padStart (natToDecimal (ms % 3600000 % 60000 % 1000)) 3 '0' ++ " (h.m.s:ms)") ∧
    (60000 ≤ ms → ms < 3600000 →
      formatPerformance ms =
        padStart (natToDecimal (ms / 60000)) 2 '0' ++ "." ++
        padStart (natToDecimal (ms % 60000 / 1000)) 2 '0' ++ ":" ++
        padStart (natToDecimal (ms % 60000 % 1000)) 3 '0' ++ " (m.s:ms)") ∧
    (1000 ≤ ms → ms < 60000 →
      formatPerformance ms =
        natToDecimal (ms / 1000) ++ ":" ++
        padStart (natToDecimal (ms % 1000)) 3 '0' ++ " (s:ms)") ∧
    (ms < 1000 → formatPerformance ms = natToDecimal ms ++ " (ms)") := by
  refine ⟨?_, ?_, ?_, ?_⟩
  · intro h
    simp only [formatPerformance]
    rw [if_pos (show ms / 3600000 ≠ 0 by omega)]
  · intro h1 h2
    simp only [formatPerformance]
    rw [if_neg (show ¬ms / 3600000 ≠ 0 by omega),
      if_pos (show ms % 3600000 / 60000 ≠ 0 by omega),
      Nat.mod_eq_of_lt h2]
  · intro h1 h2
    simp only [formatPerformance]
    rw [if_neg (show ¬ms / 3600000 ≠ 0 by omega),
      if_neg (show ¬ms % 3600000 / 60000 ≠ 0 by omega),
      if_pos (show ms % 3600000 % 60000 / 1000 ≠ 0 by omega),
      Nat.mod_eq_of_lt (show ms < 3600000 by omega),
      Nat.mod_eq_of_lt (show ms < 60000 by omega)]
  · intro h
    simp only [formatPerformance]
    rw [if_neg (show ¬ms / 3600000 ≠ 0 by omega),
      if_neg (show ¬ms % 3600000 / 60000 ≠ 0 by omega),
      if_neg (show ¬ms % 3600000 % 60000 / 1000 ≠ 0 by omega),
      Nat.mod_eq_of_lt (show ms < 3600000 by omega),
      Nat.mod_eq_of_lt (show ms < 60000 by omega),
      Nat.mod_eq_of_lt (show ms < 1000 by omega)]

/-- Witness for C8: the four magnitude regimes evaluated at concrete
durations. -/
theorem claim8_witness :
    formatPerformance 3723004 = "01.02.03:004 (h.m.s:ms)" ∧
    formatPerformance 62500 = "01.02:500 (m.s:ms)" ∧
    formatPerformance 3200 = "3:200 (s:ms)" ∧
    formatPerformance 503 = "503 (ms)" := by
  refine ⟨?_, ?_, ?_, ?_⟩
  · rw [(claim8_duration_adaptive 3723004).1 (by omega)]
    decide
  · rw [(claim8_duration_adaptive 62500).2.1 (by omega) (by omega)]
    decide
  · rw [(claim8_duration_adaptive 3200).2.2.1 (by omega) (by omega)]
    decide
  · rw [(claim8_duration_adaptive 503).2.2.2 (by omega)]
    decide

/-- One driver step settles exactly one file and bumps exactly one of the two
counters by exactly one. -/
theorem stepFile_counts (env : ZoneEnv) (fromISO : String → LuxonDT)
    (jsDate : String → Option Int) (readExif : String → Option ExifMap)
    (renameOk : String → String → Bool) (applyRen : FS → String → String → FS)
    (st : RunState) (filePath : String) :
    (stepFile env fromISO jsDate readExif renameOk applyRen st filePath).renamed +
      (stepFile env fromISO jsDate readExif renameOk applyRen st filePath).skipped =
      st.renamed + st.skipped + 1 := by
  cases h : processFile env fromISO jsDate readExif renameOk st.fs filePath <;>
    simp [stepFile, h] <;> omega

/-- C9: every file path produced by the walk increments exactly one of the
two counters by exactly one (renamed on a successful rename, skipped
otherwise), so after the batch `renamed + skipped` equals the number of
enumerated files. -/
theorem claim9_counter_invariant (env : ZoneEnv) (fromISO : String → LuxonDT)
    (jsDate : String → Option Int) (readExif : String → Option ExifMap)
    (renameOk : String → String → Bool) (applyRen : FS → String → String → FS) :
    (∀ (st : RunState) (filePath : String),
      (stepFile env fromISO jsDate readExif renameOk applyRen st filePath).renamed +
        (stepFile env fromISO jsDate readExif renameOk applyRen st filePath).skipped =
        st.renamed + st.skipped + 1) ∧
    ∀ (files : List String) (st : RunState),
      (renameFiles env fromISO jsDate readExif renameOk applyRen st files).renamed +
        (renameFiles env fromISO jsDate readExif renameOk applyRen st files).skipped =
        st.renamed + st.skipped + files.length := by
  refine ⟨stepFile_counts env fromISO jsDate readExif renameOk applyRen, ?_⟩
  intro files
  induction files with
  | nil => intro st; simp [renameFiles]
  | cons f rest ih =>
    intro st
    have hstep := stepFile_counts env fromISO jsDate readExif renameOk applyRen st f
    have := ih (stepFile env fromISO jsDate readExif renameOk applyRen st f)
    simp only [renameFiles, List.foldl, List.length_cons] at this ⊢
    omega

/-- C6: a priority field whose string value parses to an invalid date is
skipped and the search continues with the next field; a metadata read that
throws, or a mapping with no usable priority field, yields no capture date,
which the driver turns into `SkippedNoDate` (the filename is unchanged: the
outcome is not a rename). -/
theorem claim6_invalid_field_and_no_date (env : ZoneEnv) (fromISO : String → LuxonDT)
    (jsDate : String → Option Int) (readExif : String → Option ExifMap)
    (renameOk : String → String → Bool) (fs : FS) (filePath : String) (exif : ExifMap) :
    (∀ (key : String) (rest : List String) (s : String),
      exif key = some (.str s) → jsDate s = none →
      searchFields env jsDate exif (key :: rest) = searchFields env jsDate exif rest) ∧
    (isFileSupported (lowerStr (extname filePath)) = true →
      readExif filePath = none →
      processFile env fromISO jsDate readExif renameOk fs filePath = .SkippedNoDate) ∧
    (isFileSupported (lowerStr (extname filePath)) = true →
      readExif filePath = some exif →
      getCaptureDate env jsDate exif = none →
      processFile env fromISO jsDate readExif renameOk fs filePath = .SkippedNoDate) := by
  refine ⟨?_, ?_, ?_⟩
  · intro key rest s hk hj
    by_cases hs : s = "" <;> simp [searchFields, hk, hj, hs]
  · intro hsup hread
    simp [processFile, hsup, hread]
  · intro hsup hread hcap
    simp [processFile, hsup, hread, hcap]

/-- A metadata mapping whose only date tag is an unparsable string. -/
def exif6 : ExifMap :=
  fun k => if k = "DateTimeOriginal" then some (.str "not a date") else none

/-- Witness for C6: the unparsable string field is skipped, the whole search
yields no date, and the driver reports `SkippedNoDate`. -/
theorem claim6_witness :
    exif6 "DateTimeOriginal" = some (.str "not a date") ∧
    jsNone "not a date" = none ∧
    searchFields env0 jsNone exif6 ["DateTimeOriginal"] =
      searchFields env0 jsNone exif6 [] ∧
    getCaptureDate env0 jsNone exif6 = none ∧
    processFile env0 noISO jsNone (fun _ => some exif6) (fun _ _ => true) fs1 "/d/a.jpg" =
      .SkippedNoDate := by
  have h := claim6_invalid_field_and_no_date env0 noISO jsNone (fun _ => some exif6)
    (fun _ _ => true) fs1 "/d/a.jpg" exif6
  exact ⟨by decide, rfl, h.1 "DateTimeOriginal" [] "not a date" (by decide) rfl,
    by decide, h.2.2 (by decide) rfl (by decide)⟩

/-- A structured record whose components do not form a valid date and whose
raw textual form is not ISO-8601. -/
def cdBad : CaptureRecord :=
  { year := 0, month := 0, day := 0, hour := 0, minute := 0, second := 0,
    millisecond := none, tzoffsetMinutes := some 0,
    rawValue := "0000:00:00 00:00:00", zoneName := some "UTC" }

/-- A metadata mapping carrying the invalid record under a ZONED tag. -/
def exifBad : ExifMap :=
  fun k => if k = "CreateDate" then some (.obj cdBad) else none

/-- A filesystem with no entries. -/
def fsEmpty : FS := { entries := [], realpath := id }

/-- C10: an object-form candidate is accepted by the resolver without any
validity check; with a raw value that fails ISO parsing and components that
do not form a valid date, the formatter still returns a string - Luxon's
"Invalid DateTime" text - and the name generator offers a target filename
containing that text instead of skipping the file. -/
theorem claim10_invalid_object_accepted :
    (noISO cdBad.rawValue).ok = false ∧
    recValid cdBad = false ∧
    getCaptureDate env0 jsNone exifBad = some ("CreateDate", cdBad) ∧
    formatDate env0 noISO "CreateDate" cdBad = "Invalid DateTime" ∧
    getNewFilePath env0 noISO fsEmpty "CreateDate" cdBad ".jpg" "/d/clip.jpg" =
      some "/d/IMG_Invalid DateTime.jpg" := by
  decide

theorem jsTzNonzero_iff (o : Option Int) : jsTzNonzero o = true ↔ o ≠ some 0 := by
  cases o with
  | none => simp [jsTzNonzero]
  | some v => simp [jsTzNonzero]

theorem jsZoneNonUTC_iff (o : Option String) :
    jsZoneNonUTC o = true ↔ ∃ z, o = some z ∧ z ≠ "" ∧ z ≠ "UTC" := by
  cases o with
  | none => simp [jsZoneNonUTC]
  | some z => simp [jsZoneNonUTC, bne_iff_ne]

/-- C1: for a ZONED-classified field, the formatter decides "explicit offset
present" exactly when the raw textual form ends in `±HH:MM`, or the record's
minute-offset field is not the number zero (per JS `!== 0`, an absent field
also passes), or the record carries a nonempty named zone other than `UTC`;
when none hold the output components are the parsed value converted to the
machine's local timezone (instant kept, offset replaced by the local offset),
and when any holds the parsed value's own offset-local components are kept
unconverted. -/
theorem claim1_zoned_explicit_offset_rule (env : ZoneEnv) (fromISO : String → LuxonDT)
    (key : String) (cd : CaptureRecord)
    (hk : key ∈ TimelineMediaRenamerSettings.EXIF_DATES_ZONED) :
    (hasExplicitOffset cd = true ↔
      (offsetTest cd.rawValue = true ∨ cd.tzoffsetMinutes ≠ some 0 ∨
        (∃ z, cd.zoneName = some z ∧ z ≠ "" ∧ z ≠ "UTC"))) ∧
    (hasExplicitOffset cd = false →
      formatDate env fromISO key cd =
        ((parseCascade env fromISO cd).setZoneName env env.localZone).toFormat ∧
      ((parseCascade env fromISO cd).ok = true →
        formatDate env fromISO key cd =
          renderCivilStr (civilOfLocalMs
            ((parseCascade env fromISO cd).instant + env.localOffset * 60000)))) ∧
    (hasExplicitOffset cd = true →
      formatDate env fromISO key cd = (parseCascade env fromISO cd).toFormat ∧
      ((parseCascade env fromISO cd).ok = true →
        formatDate env fromISO key cd =
          renderCivilStr (civilOfLocalMs
            ((parseCascade env fromISO cd).instant +
              (parseCascade env fromISO cd).offset * 60000)))) := by
  refine ⟨?_, ?_, ?_⟩
  · simp only [hasExplicitOffset, Bool.or_eq_true, jsTzNonzero_iff, jsZoneNonUTC_iff,
      or_assoc]
  · intro hexp
    have hfd : formatDate env fromISO key cd =
        ((parseCascade env fromISO cd).setZoneName env env.localZone).toFormat := by
      simp only [formatDate, if_pos hk, hexp]
      rfl
    refine ⟨hfd, fun hok => ?_⟩
    rw [hfd]
    simp only [LuxonDT.toFormat, LuxonDT.setZoneName, LuxonDT.localMs, hok, if_true]
    rfl
  · intro hexp
    have hfd : formatDate env fromISO key cd = (parseCascade env fromISO cd).toFormat := by
      simp only [formatDate, if_pos hk, hexp]
      rfl
    refine ⟨hfd, fun hok => ?_⟩
    rw [hfd]
    simp only [LuxonDT.toFormat, LuxonDT.localMs, hok, if_true]

/-- A ZONED record carrying no explicit offset marker (UTC sentinel zone,
zero minute offset, no trailing offset in the raw form). -/
def cdU : CaptureRecord :=
  { year := 2024, month := 12, day := 31, hour := 23, minute := 59, second := 59,
    millisecond := none, tzoffsetMinutes := some 0,
    rawValue := "2024:12:31 23:59:59", zoneName := some "UTC" }

/-- A ZONED record carrying an explicit offset marker. -/
def cdE : CaptureRecord :=
  { year := 2024, month := 12, day := 31, hour := 23, minute := 59, second := 59,
    millisecond := none, tzoffsetMinutes := some 120,
    rawValue := "2024:12:31 23:59:59+02:00", zoneName := some "Europe/Berlin" }

/-- Witness for C1: on a UTC+3 machine, the offset-free UTC value is
converted (+3 hours, crossing the year boundary), while the explicit-offset
value keeps its own components. -/
theorem claim1_witness :
    ("CreateDate" ∈ TimelineMediaRenamerSettings.EXIF_DATES_ZONED) ∧
    hasExplicitOffset cdU = false ∧
    formatDate envP3 noISO "CreateDate" cdU = "2025-01-01_02-59-59" ∧
    hasExplicitOffset cdE = true ∧
    formatDate envP3 noISO "CreateDate" cdE = "2024-12-31_23-59-59" := by
  refine ⟨by decide, by decide, ?_, by decide, ?_⟩
  · rw [((claim1_zoned_explicit_offset_rule envP3 noISO "CreateDate" cdU (by decide)).2.1
      (by decide)).1]
    decide
  · rw [((claim1_zoned_explicit_offset_rule envP3 noISO "CreateDate" cdE (by decide)).2.2
      (by decide)).1]
    decide

/-! ### Round-trip of the civil-calendar algorithms: `civilFromDays` inverts
`daysFromCivil` on valid dates.  The year-of-era recovery is checked for each
of the 400 years of an era; the month/day recovery and the era arithmetic are
linear. -/

theorem daysInMonth_le (y m : Int) : daysInMonth y m ≤ 31 := by
  simp only [daysInMonth]
  split_ifs <;> omega

theorem mpRec (mp d : Int) (h1 : 0 ≤ mp) (h2 : mp ≤ 11) (hd1 : 1 ≤ d)
    (hd2 : d ≤ (153 * (mp + 1) + 2) / 5 - (153 * mp + 2) / 5) :
    (5 * ((153 * mp + 2) / 5 + d - 1) + 2) / 153 = mp ∧
    ((153 * mp + 2) / 5 + d - 1) - (153 * mp + 2) / 5 + 1 = d ∧
    0 ≤ (153 * mp + 2) / 5 + d - 1 ∧ (153 * mp + 2) / 5 + d - 1 ≤ 366 := by
  interval_cases mp <;> omega

set_option maxHeartbeats 4000000 in
theorem yoeRec (yoe doy : Int) (h1 : 0 ≤ yoe) (h2 : yoe ≤ 399) (h3 : 0 ≤ doy)
    (h4 : doy ≤ 364 ∨ (doy = 365 ∧
      (((yoe + 1) % 4 = 0 ∧ (yoe + 1) % 100 ≠ 0) ∨ (yoe + 1) % 400 = 0))) :
    ((yoe * 365 + yoe / 4 - yoe / 100 + doy) -
      (yoe * 365 + yoe / 4 - yoe / 100 + doy) / 1460 +
      (yoe * 365 + yoe / 4 - yoe / 100 + doy) / 36524 -
      (yoe * 365 + yoe / 4 - yoe / 100 + doy) / 146096) / 365 = yoe := by
  interval_cases yoe <;> omega

theorem roundtrip_core (era yoe mp d : Int)
    (hy1 : 0 ≤ yoe) (hy2 : yoe ≤ 399) (hm1 : 0 ≤ mp) (hm2 : mp ≤ 11) (hd1 : 1 ≤ d)
    (hdsh : d ≤ (153 * (mp + 1) + 2) / 5 - (153 * mp + 2) / 5)
    (hleap : (153 * mp + 2) / 5 + d - 1 ≤ 364 ∨
      ((153 * mp + 2) / 5 + d - 1 = 365 ∧
        (((yoe + 1) % 4 = 0 ∧ (yoe + 1) % 100 ≠ 0) ∨ (yoe + 1) % 400 = 0))) :
    civilFromDays (era * 146097 +
        (yoe * 365 + yoe / 4 - yoe / 100 + ((153 * mp + 2) / 5 + d - 1)) - 719468) =
      (yoe + era * 400 + (if mp + (if mp < 10 then 3 else -9) ≤ 2 then 1 else 0),
        mp + (if mp < 10 then 3 else -9), d) := by
  have hmp0 := mpRec mp d hm1 hm2 hd1 hdsh
  have hdoy0 : 0 ≤ (153 * mp + 2) / 5 + d - 1 := hmp0.2.2.1
  have hyoeRec := yoeRec yoe ((153 * mp + 2) / 5 + d - 1) hy1 hy2 hdoy0 hleap
  simp only [civilFromDays]
  have hz : era * 146097 +
      (yoe * 365 + yoe / 4 - yoe / 100 + ((153 * mp + 2) / 5 + d - 1)) - 719468 + 719468 =
      era * 146097 + (yoe * 365 + yoe / 4 - yoe / 100 + ((153 * mp + 2) / 5 + d - 1)) := by
    ring
  rw [hz]
  have hera : (era * 146097 +
      (yoe * 365 + yoe / 4 - yoe / 100 + ((153 * mp + 2) / 5 + d - 1))) / 146097 = era := by
    omega
  rw [hera]
  have hdoe : era * 146097 +
      (yoe * 365 + yoe / 4 - yoe / 100 + ((153 * mp + 2) / 5 + d - 1)) - era * 146097 =
      yoe * 365 + yoe / 4 - yoe / 100 + ((153 * mp + 2) / 5 + d - 1) := by
    ring
  rw [hdoe]
  rw [hyoeRec]
  have hdoyR : yoe * 365 + yoe / 4 - yoe / 100 + ((153 * mp + 2) / 5 + d - 1) -
      (365 * yoe + yoe / 4 - yoe / 100) = (153 * mp + 2) / 5 + d - 1 := by
    ring
  rw [hdoyR]
  rw [hmp0.1]
  rw [hmp0.2.1]

theorem d_le_shifted (y m d : Int) (hm1 : 1 ≤ m) (hm2 : m ≤ 12)
    (hd2 : d ≤ daysInMonth y m) :
    d ≤ (153 * ((m + 9) % 12 + 1) + 2) / 5 - (153 * ((m + 9) % 12) + 2) / 5 := by
  interval_cases m <;> norm_num [daysInMonth] at hd2 <;> omega

theorem civilFromDays_daysFromCivil (y m d : Int) (hm1 : 1 ≤ m) (hm2 : m ≤ 12)
    (hd1 : 1 ≤ d) (hd2 : d ≤ daysInMonth y m) :
    civilFromDays (daysFromCivil y m d) = (y, m, d) := by
  have h31 : d ≤ 31 := le_trans hd2 (daysInMonth_le y m)
  have hexp : daysFromCivil y m d =
      (y - (if m ≤ 2 then 1 else 0)) / 400 * 146097 +
        ((y - (if m ≤ 2 then 1 else 0) - (y - (if m ≤ 2 then 1 else 0)) / 400 * 400) * 365 +
          (y - (if m ≤ 2 then 1 else 0) - (y - (if m ≤ 2 then 1 else 0)) / 400 * 400) / 4 -
          (y - (if m ≤ 2 then 1 else 0) - (y - (if m ≤ 2 then 1 else 0)) / 400 * 400) / 100 +
          ((153 * ((m + 9) % 12) + 2) / 5 + d - 1)) - 719468 := rfl
  have hleap : (153 * ((m + 9) % 12) + 2) / 5 + d - 1 ≤ 364 ∨
      ((153 * ((m + 9) % 12) + 2) / 5 + d - 1 = 365 ∧
        ((((y - (if m ≤ 2 then 1 else 0) -
            (y - (if m ≤ 2 then 1 else 0)) / 400 * 400) + 1) % 4 = 0 ∧
          ((y - (if m ≤ 2 then 1 else 0) -
            (y - (if m ≤ 2 then 1 else 0)) / 400 * 400) + 1) % 100 ≠ 0) ∨
          ((y - (if m ≤ 2 then 1 else 0) -
            (y - (if m ≤ 2 then 1 else 0)) / 400 * 400) + 1) % 400 = 0)) := by
    by_cases hmm2 : m = 2
    · subst hmm2
      have hdm2 : d ≤ if isLeap y then 29 else 28 := by
        simpa [daysInMonth] using hd2
      have hadj : (if (2 : Int) ≤ 2 then (1 : Int) else 0) = 1 := by norm_num
      rw [hadj]
      by_cases hl : isLeap y
      · rw [if_pos hl] at hdm2
        by_cases hd29 : d = 29
        · subst hd29
          have hl2 : (y % 4 = 0 ∧ y % 100 ≠ 0) ∨ y % 400 = 0 := hl
          refine Or.inr ⟨by decide, ?_⟩
          omega
        · exact Or.inl (by omega)
      · rw [if_neg hl] at hdm2
        exact Or.inl (by omega)
    · exact Or.inl (by omega)
  rw [hexp]
  rw [roundtrip_core ((y - (if m ≤ 2 then 1 else 0)) / 400)
      (y - (if m ≤ 2 then 1 else 0) - (y - (if m ≤ 2 then 1 else 0)) / 400 * 400)
      ((m + 9) % 12) d (by omega) (by omega) (by omega) (by omega) hd1
      (d_le_shifted y m d hm1 hm2 hd2) hleap]
  have hmR : (m + 9) % 12 + (if (m + 9) % 12 < 10 then 3 else -9) = m := by
    by_cases h : (m + 9) % 12 < 10 <;> simp only [h, if_true, if_false] <;> omega
  rw [hmR]
  simp only [Prod.mk.injEq, and_true]
  by_cases hmle : m ≤ 2 <;> simp only [hmle, if_true, if_false] <;> omega

theorem civilOfLocalMs_components (y m d hh mi ss : Int)
    (hm1 : 1 ≤ m) (hm2 : m ≤ 12) (hd1 : 1 ≤ d) (hd2 : d ≤ daysInMonth y m)
    (hh1 : 0 ≤ hh) (hh2 : hh ≤ 23) (hmi1 : 0 ≤ mi) (hmi2 : mi ≤ 59)
    (hs1 : 0 ≤ ss) (hs2 : ss ≤ 59) :
    civilOfLocalMs ((daysFromCivil y m d * 86400 + hh * 3600 + mi * 60 + ss) * 1000) =
      { year := y, month := m, day := d, hour := hh, minute := mi, second := ss } := by
  have hcal := civilFromDays_daysFromCivil y m d hm1 hm2 hd1 hd2
  simp only [civilOfLocalMs]
  have hsec : (daysFromCivil y m d * 86400 + hh * 3600 + mi * 60 + ss) * 1000 / 1000 =
      daysFromCivil y m d * 86400 + hh * 3600 + mi * 60 + ss := by omega
  rw [hsec]
  have hdays : (daysFromCivil y m d * 86400 + hh * 3600 + mi * 60 + ss) / 86400 =
      daysFromCivil y m d := by omega
  have htod : (daysFromCivil y m d * 86400 + hh * 3600 + mi * 60 + ss) % 86400 =
      hh * 3600 + mi * 60 + ss := by omega
  rw [hdays, htod, hcal]
  have hhh : (hh * 3600 + mi * 60 + ss) / 3600 = hh := by omega
  have hmm : (hh * 3600 + mi * 60 + ss) % 3600 / 60 = mi := by omega
  have hss : (hh * 3600 + mi * 60 + ss) % 60 = ss := by omega
  rw [hhh, hmm, hss]

/-! ### Claim C2: LOCAL fields always win and keep their wall clock -/

/-- A metadata value the priority search can use: a (truthy) object, or a
nonempty string that the JS `Date` parser accepts. -/
def usableValue (jsDate : String → Option Int) : Option ExifVal → Bool
  | some (.obj _) => true
  | some (.str s) => (s != "") && (jsDate s).isSome
  | some .other => false
  | none => false

theorem searchFields_append_some (env : ZoneEnv) (jsDate : String → Option Int)
    (exif : ExifMap) (l1 l2 : List String) (v : String × CaptureRecord) :
    searchFields env jsDate exif l1 = some v →
    searchFields env jsDate exif (l1 ++ l2) = some v := by
  induction l1 with
  | nil => intro h; simp [searchFields] at h
  | cons key rest ih =>
    intro h
    rw [List.cons_append]
    cases hk : exif key with
    | none =>
      simp only [searchFields, hk] at h ⊢
      exact ih h
    | some v2 =>
      cases v2 with
      | obj r =>
        simp only [searchFields, hk] at h ⊢
        exact h
      | str s =>
        simp only [searchFields, hk] at h ⊢
        by_cases hs : s = ""
        · simp only [if_pos hs] at h ⊢
          exact ih h
        · simp only [if_neg hs] at h ⊢
          cases hj : jsDate s with
          | none =>
            simp only [hj] at h ⊢
            exact ih h
          | some t =>
            simp only [hj] at h ⊢
            exact h
      | other =>
        simp only [searchFields, hk] at h ⊢
        exact ih h

theorem searchFields_first_usable (env : ZoneEnv) (jsDate : String → Option Int)
    (exif : ExifMap) :
    ∀ keys : List String, (∃ k ∈ keys, usableValue jsDate (exif k) = true) →
    ∃ pre suf k0 cd, keys = pre ++ k0 :: suf ∧
      (∀ k2 ∈ pre, usableValue jsDate (exif k2) = false) ∧
      usableValue jsDate (exif k0) = true ∧
      searchFields env jsDate exif keys = some (k0, cd) := by
  intro keys
  induction keys with
  | nil => rintro ⟨k, hk, _⟩; simp at hk
  | cons key rest ih =>
    intro hex
    by_cases hu : usableValue jsDate (exif key) = true
    · cases hk : exif key with
      | none => rw [hk] at hu; simp [usableValue] at hu
      | some v =>
        cases v with
        | obj r =>
          exact ⟨[], rest, key, r, rfl, by simp, hu, by simp [searchFields, hk]⟩
        | str s =>
          rw [hk] at hu
          simp only [usableValue, Bool.and_eq_true, bne_iff_ne, ne_eq,
            Option.isSome_iff_exists] at hu
          obtain ⟨hs, t, ht⟩ := hu
          refine ⟨[], rest, key, recordFromJsMs env t, rfl, by simp, ?_, ?_⟩
          · rw [hk]
            simp [usableValue, hs, ht]
          · simp [searchFields, hk, hs, ht]
        | other => rw [hk] at hu; simp [usableValue] at hu
    · have hex2 : ∃ k ∈ rest, usableValue jsDate (exif k) = true := by
        obtain ⟨k, hkmem, hku⟩ := hex
        rcases List.mem_cons.1 hkmem with rfl | hkr
        · exact absurd hku hu
        · exact ⟨k, hkr, hku⟩
      obtain ⟨pre, suf, k0, cd, hkeys, hpre, hu0, hsearch⟩ := ih hex2
      have hskip : searchFields env jsDate exif (key :: rest) =
          searchFields env jsDate exif rest := by
        cases hk : exif key with
        | none => simp [searchFields, hk]
        | some v =>
          cases v with
          | obj r => rw [hk] at hu; simp [usableValue] at hu
          | str s =>
            rw [hk] at hu
            by_cases hs : s = ""
            · simp [searchFields, hk, hs]
            · simp only [usableValue, Bool.and_eq_true, bne_iff_ne, ne_eq] at hu
              cases hj : jsDate s with
              | none => simp [searchFields, hk, hs, hj]
              | some t =>
                exfalso
                exact hu ⟨hs, by simp [hj]⟩
          | other => simp [searchFields, hk]
      refine ⟨key :: pre, suf, k0, cd, by rw [hkeys]; simp, ?_, hu0, by rw [hskip, hsearch]⟩
      intro k2 hk2
      rcases List.mem_cons.1 hk2 with rfl | hk2r
      · simpa using hu
      · exact hpre k2 hk2r

theorem local_not_zoned (k : String)
    (hk : k ∈ TimelineMediaRenamerSettings.EXIF_DATES_LOCAL) :
    k ∉ TimelineMediaRenamerSettings.EXIF_DATES_ZONED := by
  fin_cases hk <;> decide

/-- C2: whenever some LOCAL-priority field has a usable value, the resolver
returns a LOCAL field - the first usable one, tried before every ZONED field
in the fixed sub-order - and the formatter applies no timezone conversion to
it: the output equals the parse cascade's own rendering, and in the
structured fallback the calendar components of the chosen record appear in
the output verbatim. -/
theorem claim2_local_fields_win (env : ZoneEnv) (jsDate : String → Option Int)
    (fromISO : String → LuxonDT) (exif : ExifMap) (k : String)
    (hk : k ∈ TimelineMediaRenamerSettings.EXIF_DATES_LOCAL)
    (hu : usableValue jsDate (exif k) = true) :
    ∃ k0 cd, getCaptureDate env jsDate exif = some (k0, cd) ∧
      k0 ∈ TimelineMediaRenamerSettings.EXIF_DATES_LOCAL ∧
      usableValue jsDate (exif k0) = true ∧
      (∃ pre suf, TimelineMediaRenamerSettings.EXIF_DATES_LOCAL = pre ++ k0 :: suf ∧
        ∀ k2 ∈ pre, usableValue jsDate (exif k2) = false) ∧
      formatDate env fromISO k0 cd = (parseCascade env fromISO cd).toFormat ∧
      ((fromISO cd.rawValue).ok = false → recValid cd = true →
        formatDate env fromISO k0 cd = renderCivilStr
          { year := cd.year, month := cd.month, day := cd.day,
            hour := cd.hour, minute := cd.minute, second := cd.second }) := by
  obtain ⟨pre, suf, k0, cd, hkeys, hpre, hu0, hsearch⟩ :=
    searchFields_first_usable env jsDate exif
      TimelineMediaRenamerSettings.EXIF_DATES_LOCAL ⟨k, hk, hu⟩
  have hk0 : k0 ∈ TimelineMediaRenamerSettings.EXIF_DATES_LOCAL := by
    rw [hkeys]
    exact List.mem_append.2 (Or.inr (List.mem_cons_self k0 suf))
  have hnz : k0 ∉ TimelineMediaRenamerSettings.EXIF_DATES_ZONED := local_not_zoned k0 hk0
  have hcap : getCaptureDate env jsDate exif = some (k0, cd) := by
    unfold getCaptureDate
    exact searchFields_append_some env jsDate exif
      TimelineMediaRenamerSettings.EXIF_DATES_LOCAL
      TimelineMediaRenamerSettings.EXIF_DATES_ZONED (k0, cd) hsearch
  have hfd : formatDate env fromISO k0 cd = (parseCascade env fromISO cd).toFormat := by
    simp only [formatDate, if_neg hnz]
  refine ⟨k0, cd, hcap, hk0, hu0, ⟨pre, suf, hkeys, hpre⟩, hfd, ?_⟩
  intro hiso hvalid
  rw [hfd]
  have hpc : parseCascade env fromISO cd = fromObjectModel env cd := by
    simp [parseCascade, hiso]
  rw [hpc]
  simp only [LuxonDT.toFormat, fromObjectModel, hvalid, if_true, LuxonDT.localMs]
  have harith : (daysFromCivil cd.year cd.month cd.day * 86400 +
        cd.hour * 3600 + cd.minute * 60 + cd.second) * 1000 -
      env.zoneOffset cd.zoneName * 60000 + env.zoneOffset cd.zoneName * 60000 =
      (daysFromCivil cd.year cd.month cd.day * 86400 +
        cd.hour * 3600 + cd.minute * 60 + cd.second) * 1000 := by
    ring
  rw [harith]
  have hranges : 1 ≤ cd.month ∧ cd.month ≤ 12 ∧ 1 ≤ cd.day ∧
      cd.day ≤ daysInMonth cd.year cd.month ∧ 0 ≤ cd.hour ∧ cd.hour ≤ 23 ∧
      0 ≤ cd.minute ∧ cd.minute ≤ 59 ∧ 0 ≤ cd.second ∧ cd.second ≤ 59 := by
    simpa [recValid, decide_eq_true_eq, and_assoc] using hvalid
  rw [civilOfLocalMs_components cd.year cd.month cd.day cd.hour cd.minute cd.second
    hranges.1 hranges.2.1 hranges.2.2.1 hranges.2.2.2.1 hranges.2.2.2.2.1
    hranges.2.2.2.2.2.1 hranges.2.2.2.2.2.2.1 hranges.2.2.2.2.2.2.2.1
    hranges.2.2.2.2.2.2.2.2.1 hranges.2.2.2.2.2.2.2.2.2]

/-- A metadata mapping with both a LOCAL object field and a ZONED object
field carrying a different timestamp. -/
def exif2 : ExifMap :=
  fun k =>
    if k = "DateTimeOriginal" then some (.obj cd0)
    else if k = "CreateDate" then some (.obj cdE) else none

/-- Witness for C2: with both a LOCAL and a ZONED field present on a UTC+3
machine, the LOCAL field is chosen and its components pass through verbatim
with no conversion. -/
theorem claim2_witness :
    ("DateTimeOriginal" ∈ TimelineMediaRenamerSettings.EXIF_DATES_LOCAL) ∧
    usableValue jsNone (exif2 "DateTimeOriginal") = true ∧
    getCaptureDate envP3 jsNone exif2 = some ("DateTimeOriginal", cd0) ∧
    formatDate envP3 noISO "DateTimeOriginal" cd0 = "2024-01-01_00-00-00" ∧
    (∃ k0 cd, getCaptureDate envP3 jsNone exif2 = some (k0, cd) ∧
      k0 ∈ TimelineMediaRenamerSettings.EXIF_DATES_LOCAL ∧
      usableValue jsNone (exif2 k0) = true ∧
      (∃ pre suf, TimelineMediaRenamerSettings.EXIF_DATES_LOCAL = pre ++ k0 :: suf ∧
        ∀ k2 ∈ pre, usableValue jsNone (exif2 k2) = false) ∧
      formatDate envP3 noISO k0 cd = (parseCascade envP3 noISO cd).toFormat ∧
      ((noISO cd.rawValue).ok = false → recValid cd = true →
        formatDate envP3 noISO k0 cd = renderCivilStr
          { year := cd.year, month := cd.month, day := cd.day,
            hour := cd.hour, minute := cd.minute, second := cd.second })) :=
  ⟨by decide, by decide, by decide, by decide,
    claim2_local_fields_win envP3 jsNone noISO exif2 "DateTimeOriginal"
      (by decide) (by decide)⟩

end TMR
